import Mathlib

/-!
Verification of the `http-trace` repository (packages `trace` and `report`)
against its natural-language specification.

The Go code is shallowly embedded: `time.Duration` values (int64 nanoseconds)
become `Int`; the `httptrace.ClientTrace` callbacks become an event type
applied to a `Timings` record exactly as the Go closures mutate it; the
behaviour of the external HTTP client (`client.Do`) and of the body reader
(`ioutil.ReadAll`) is an `Outcome` parameter, since both live outside the
repository.  Fallible operations return `Option`/`Except`.
-/

namespace HttpTrace

/-- Model of `trace.Timings` (src/trace/trace.go).  Every field is a Go
`time.Duration` in nanoseconds; the zero value of the struct has every
field equal to zero, as in Go. -/
structure Timings where
  getConnStart  : Int := 0
  connectStart  : Int := 0
  dnsStart      : Int := 0
  tlsStart      : Int := 0
  requestStart  : Int := 0
  delayStart    : Int := 0
  responseStart : Int := 0
  DNSDuration             : Int := 0
  ConnectionDialDuration  : Int := 0
  TLSDuration             : Int := 0
  TotalConnectionDuration : Int := 0
  RequestWriteDuration    : Int := 0
  ResponseDelayDuration   : Int := 0
  ResponseReadDuration    : Int := 0
  TotalRequestDuration    : Int := 0
  deriving Repr, DecidableEq

/-- Model of `url.URL`, restricted to the two fields the repository reads
(`.Host` and `.Path`). -/
structure URL where
  host : String
  path : String
  deriving Repr, DecidableEq

/-- A header mapping: the association of canonical header names to their
value lists (`http.Header` is `map[string][]string`). -/
abbrev HeaderMap := List (String × List String)

/-- Model of `http.Request`, restricted to the caller-visible fields the
repository touches.  `hasTraceContext` records whether the request's
context carries the `httptrace.ClientTrace` observers
(`httptrace.WithClientTrace`): the request produced by
`request.WithContext` is a copy differing only in its context. -/
structure Request where
  method : String
  url : URL
  proto : String
  header : HeaderMap
  body : String
  hasTraceContext : Bool := false
  deriving Repr, DecidableEq

/-- Model of `http.Response`, restricted to the fields the repository
reads. -/
structure Response where
  status : String
  statusCode : Int
  header : HeaderMap
  deriving Repr, DecidableEq

/-- Model of `trace.Trace` (src/trace/trace.go). -/
structure Trace where
  timings : Timings
  request : Request
  response : Option Response := none
  responseBody : String := ""
  deriving Repr, DecidableEq

/-- Model of `trace.New`: fresh zero `Timings`, no response, empty body. -/
def New (request : Request) : Trace :=
  { timings := {}, request := request }

/-- One firing of an `httptrace.ClientTrace` callback, tagged with the
elapsed time (`timeSinceStart()`) at which it fires. -/
inductive TraceEvent where
  | getConn (t : Int)
  | gotConn (reused : Bool) (t : Int)
  | gotFirstResponseByte (t : Int)
  | dnsStart (t : Int)
  | dnsDone (t : Int)
  | connectStart (t : Int)
  | connectDone (t : Int)
  | tlsStart (t : Int)
  | tlsDone (t : Int)
  | wroteRequest (t : Int)
  deriving Repr, DecidableEq

/-- The mutation each callback of the `httptrace.ClientTrace` literal in
`Execute` performs on the shared `Timings` record (src/trace/trace.go). -/
def applyEvent (tm : Timings) : TraceEvent → Timings
  | .getConn t => { tm with getConnStart := t }
  | .gotConn reused t =>
      let tm2 := if reused then tm
        else { tm with TotalConnectionDuration := t - tm.getConnStart }
      { tm2 with requestStart := t }
  | .gotFirstResponseByte t =>
      { tm with ResponseDelayDuration := t - tm.delayStart, responseStart := t }
  | .dnsStart t => { tm with dnsStart := t }
  | .dnsDone t => { tm with DNSDuration := t - tm.dnsStart }
  | .connectStart t => { tm with connectStart := t }
  | .connectDone t => { tm with ConnectionDialDuration := t - tm.connectStart }
  | .tlsStart t => { tm with tlsStart := t }
  | .tlsDone t => { tm with TLSDuration := t - tm.tlsStart }
  | .wroteRequest t =>
      { tm with RequestWriteDuration := t - tm.requestStart, delayStart := t }

/-- The callbacks fired during one `client.Do`, applied in order. -/
def applyEvents (tm : Timings) (es : List TraceEvent) : Timings :=
  es.foldl applyEvent tm

/-- The behaviour of the instrumented exchange, seen from `Execute`:
`rStart` is the elapsed time captured by `requestStartTime := timeSinceStart()`
at the top of `Execute`; `events` are the trace callbacks fired inside
`client.Do`; `doResult` is what `client.Do` returns; `bodyRead` is what
`ioutil.ReadAll(resp.Body)` returns; `finish` is the elapsed time
`finishTime := timeSinceStart()` after the body read. -/
structure Outcome where
  rStart : Int
  events : List TraceEvent
  doResult : Except String Response
  bodyRead : Except String String
  finish : Int
  deriving Repr

/-- What one call of `Execute` produces: the updated `Trace` value (the
receiver is a pointer in Go, so callback mutations of `timings` survive an
early error return), the returned error, and the lines written to stderr. -/
structure ExecResult where
  trace : Trace
  error : Option String := none
  stderr : List String := []
  deriving Repr

/-- Model of `(*Trace).Execute` (src/trace/trace.go). -/
def Execute (t : Trace) (o : Outcome) : ExecResult :=
  let req := { t.request with hasTraceContext := true }
  let tm := applyEvents t.timings o.events
  match o.doResult with
  | .error e =>
      { trace := { t with request := req, timings := tm },
        error := some ("error sending request: " ++ e) }
  | .ok resp =>
      let bodyAndErrs : String × List String :=
        match o.bodyRead with
        | .ok b => (b, [])
        | .error e =>
            let msg := "Error reading response body: " ++ e
            (msg, [msg ++ "\n"])
      let tm2 := { tm with
        ResponseReadDuration := o.finish - tm.responseStart,
        TotalRequestDuration := o.finish - o.rStart }
      let t2 := { t with
        request := req, timings := tm2,
        response := some resp, responseBody := bodyAndErrs.1 }
      { trace := t2, stderr := bodyAndErrs.2 }

/-- Model of `(*Trace).GetResponse`. -/
def GetResponse (t : Trace) : Option Response := t.response

/-- Model of `(*Trace).GetResponseBody`. -/
def GetResponseBody (t : Trace) : String := t.responseBody

/-- Model of `(*Trace).GetTimings`. -/
def GetTimings (t : Trace) : Timings := t.timings

/-- Split a character list at the first `':'`: `none` when no colon occurs. -/
def splitFirstColon : List Char → Option (List Char × List Char)
  | [] => none
  | c :: cs =>
      if c = ':' then some ([], cs)
      else (splitFirstColon cs).map (fun p => (c :: p.1, p.2))

/-- Go `strings.SplitN(full, ":", 2)`: at most two parts, split at the
first colon; a string with no colon yields the one-element list `[full]`. -/
def splitN2 (s : String) : List String :=
  match splitFirstColon s.data with
  | none => [s]
  | some (a, b) => [String.mk a, String.mk b]

/-- Go `unicode.IsSpace` restricted to ASCII (all inputs in this
development are ASCII): space, tab, newline, vertical tab, form feed,
carriage return. -/
def isSpaceChar (c : Char) : Bool :=
  c = ' ' || c = '\t' || c = '\n' || c = '\r' || c.toNat = 11 || c.toNat = 12

/-- Go `strings.TrimSpace`: drop leading and trailing whitespace. -/
def trimSpace (s : String) : String :=
  String.mk (((s.data.dropWhile isSpaceChar).reverse.dropWhile isSpaceChar).reverse)

/-- Go `net/textproto` `validHeaderFieldByte`: the HTTP token characters
(RFC 7230): alphanumerics and the specials (the two written via code
points are the backquote and the apostrophe). -/
def isTokenChar (c : Char) : Bool :=
  c.isAlphanum || c = '!' || c = '#' || c = '$' || c = '%' || c = '&' ||
    c = '*' || c = '+' || c = '-' || c = '.' || c = '^' || c = '_' ||
    c = '|' || c = '~' || c.toNat = 96 || c.toNat = 39

/-- Canonicalization pass of `textproto.CanonicalMIMEHeaderKey`:
uppercase at the start of the key and after each hyphen, lowercase
elsewhere. -/
def canonicalChars : Bool → List Char → List Char
  | _, [] => []
  | upper, c :: cs =>
      (if upper then c.toUpper else c.toLower) :: canonicalChars (c = '-') cs

/-- Go `textproto.CanonicalMIMEHeaderKey`: when every character is a valid
token character, canonicalize the capitalization; otherwise return the key
unchanged. -/
def canonicalMIMEHeaderKey (s : String) : String :=
  if s.data.all isTokenChar then String.mk (canonicalChars true s.data) else s

/-- Go `http.Header.Set(key, value)` (`textproto.MIMEHeader.Set`): store
`[value]` under the canonical form of `key`, replacing any previous
values.  On the association-list model: overwrite the entry when the
canonical key is present, otherwise append it. -/
def headerSet (h : HeaderMap) (key value : String) : HeaderMap :=
  let k := canonicalMIMEHeaderKey key
  if h.any (fun e => e.1 = k) then
    h.map (fun e => if e.1 = k then (k, [value]) else e)
  else h ++ [(k, [value])]

/-- Lookup in the header map: the value list stored under the canonical
form of `key`, if any. -/
def headerGet (h : HeaderMap) (key : String) : Option (List String) :=
  (h.find? (fun e => e.1 = canonicalMIMEHeaderKey key)).map Prod.snd

/-- Model of `(*Trace).SetHeaders` (src/trace/trace.go).  `split[1]` is an
out-of-bounds access when the entry holds no colon: that panic is modelled
as `none`. -/
def setHeaders (req : Request) : List String → Option Request
  | [] => some req
  | full :: rest =>
      match splitN2 full with
      | [o, v] =>
          setHeaders
            { req with header := headerSet req.header (trimSpace o) (trimSpace v) }
            rest
      | _ => none

/-- Model of `report.Presentation` (src/report/report.go). -/
structure Presentation where
  SuppressHeaders : Bool
  SuppressBody : Bool
  deriving Repr, DecidableEq

/-- Left-pad with spaces to the given width. -/
def padLeft (s : String) (w : Nat) : String :=
  String.mk (List.replicate (w - s.length) ' ') ++ s

/-- The `durationMillis` template function (src/report/report.go):
`fmt.Sprintf("%9.2fms", duration.Seconds()*1000)`.  The float64 detour is
abstracted to exact arithmetic on the nanosecond count: the printed value
is the duration in hundredths of a millisecond, rounded to nearest. -/
def durationMillis (ns : Int) : String :=
  let h := (ns + 5000) / 10000
  let whole := h / 100
  let frac := (h % 100).toNat
  let fracStr := (if frac < 10 then "0" else "") ++ toString frac
  padLeft (toString whole ++ "." ++ fracStr) 9 ++ "ms"

/-- Ordering of header entries by key, as `text/template` visits a map
with string keys in increasing key order when ranging over it. -/
def keyLE (a b : String × List String) : Prop := a.1 ≤ b.1

instance : DecidableRel keyLE := fun a b => inferInstanceAs (Decidable (a.1 ≤ b.1))

instance : IsTotal (String × List String) keyLE := ⟨fun a b => le_total a.1 b.1⟩

instance : IsTrans (String × List String) keyLE := ⟨fun _ _ _ => le_trans⟩

/-- The key-sorted view of a header map that `text/template` iterates. -/
def sortHeader (h : HeaderMap) : HeaderMap :=
  List.insertionSort keyLE h

/-- One rendered header section: for each entry, in key order, a line
`"\n" ++ mark ++ " " ++ key ++ ": " ++ values-joined-with-""` — the
range body of the template with `stringsJoin $value ""`. -/
def renderHeaderLines (mark : String) (h : HeaderMap) : String :=
  String.join ((sortHeader h).map
    (fun e => "\n" ++ mark ++ " " ++ e.1 ++ ": " ++ String.join e.2))

/-- The fixed trace section of `outputTmpl`, starting with the blank line
that precedes `Trace`. -/
def traceSection (tm : Timings) : String :=
  "\n\nTrace\n  Request\n    Connection\n      DNS Resolution:  " ++
    durationMillis tm.DNSDuration ++
  "\n      Connecting:      " ++ durationMillis tm.ConnectionDialDuration ++
  "\n      TLS handshake:   " ++ durationMillis tm.TLSDuration ++
  "\n    Connection total:  " ++ durationMillis tm.TotalConnectionDuration ++
  "\n\n    Request write:     " ++ durationMillis tm.RequestWriteDuration ++
  "\n    Response delay:    " ++ durationMillis tm.ResponseDelayDuration ++
  "\n    Response read:     " ++ durationMillis tm.ResponseReadDuration ++
  "\n\n  Request total:       " ++ durationMillis tm.TotalRequestDuration ++ "\n"

/-- The request block of `outputTmpl`: request line, request header lines,
and the closing line consisting of one `>`. -/
def requestBlock (req : Request) : String :=
  "> " ++ req.method ++ " " ++ req.url.host ++ req.url.path ++ " " ++
    req.proto ++ renderHeaderLines ">" req.header ++ "\n>\n"

/-- Model of `(*Report).Build` (src/report/report.go): the text
`outputTmpl` produces on the report data, following the template's
whitespace trimming. -/
def buildOutput (req : Request) (resp : Response) (body : String)
    (tm : Timings) (pres : Presentation) : String :=
  requestBlock req ++ "< " ++ resp.status ++
    (if pres.SuppressHeaders then "" else renderHeaderLines "<" resp.header) ++
    (if pres.SuppressBody then "" else "\n" ++ body) ++
    traceSection tm

/-- The callbacks that fire for an exchange on a reused pooled connection:
connection acquisition, `GotConn` with `Reused = true`, request written,
first response byte.  The fresh-connection observers (DNS, connect, TLS)
do not fire. -/
def reusedEvents (gc gotC wrote fb : Int) : List TraceEvent :=
  [.getConn gc, .gotConn true gotC, .wroteRequest wrote, .gotFirstResponseByte fb]

/-- Events of an optional sub-phase: at most one start/done pair. -/
def optEvents (f g : Int → TraceEvent) : Option (Int × Int) → List TraceEvent
  | none => []
  | some p => [f p.1, g p.2]

/-- The callbacks that fire for an exchange on a fresh connection, in the
standard order: connection acquisition, optional DNS lookup, dial,
optional TLS handshake, `GotConn` with `Reused = false`, request written,
first response byte. -/
def freshEvents (gc : Int) (dns : Option (Int × Int)) (c1 c2 : Int)
    (tls : Option (Int × Int)) (gotC wrote fb : Int) : List TraceEvent :=
  TraceEvent.getConn gc :: (optEvents .dnsStart .dnsDone dns ++
    [TraceEvent.connectStart c1, TraceEvent.connectDone c2] ++
    optEvents .tlsStart .tlsDone tls ++
    [TraceEvent.gotConn false gotC, TraceEvent.wroteRequest wrote,
     TraceEvent.gotFirstResponseByte fb])

/-- An optional sub-phase lies, in order, between two instants. -/
def segOrdered (lo hi : Int) : Option (Int × Int) → Prop
  | none => lo ≤ hi
  | some p => lo ≤ p.1 ∧ p.1 ≤ p.2 ∧ p.2 ≤ hi

/-- Monotone wall-clock ordering of the callback instants of a fresh
exchange, from the start marker of `Execute` to the finish instant. -/
def freshOrdered (rs gc : Int) (dns : Option (Int × Int)) (c1 c2 : Int)
    (tls : Option (Int × Int)) (gotC wrote fb fin : Int) : Prop :=
  rs ≤ gc ∧ segOrdered gc c1 dns ∧ c1 ≤ c2 ∧ segOrdered c2 gotC tls ∧
    gotC ≤ wrote ∧ wrote ≤ fb ∧ fb ≤ fin

/-- The two callback shapes of a successful exchange: a fresh connection
(with optional DNS and TLS sub-phases) or a connection reused from the
pool. -/
inductive ExchangeShape where
  | fresh (gc : Int) (dns : Option (Int × Int)) (c1 c2 : Int)
      (tls : Option (Int × Int)) (gotC wrote fb : Int)
  | reused (gc gotC wrote fb : Int)
  deriving Repr

/-- The callback events of a successful exchange of either shape. -/
def shapeEvents : ExchangeShape → List TraceEvent
  | .fresh gc dns c1 c2 tls gotC wrote fb =>
      freshEvents gc dns c1 c2 tls gotC wrote fb
  | .reused gc gotC wrote fb => reusedEvents gc gotC wrote fb

/-- Monotone wall-clock ordering of the callback instants of an exchange
of either shape, from the start marker of `Execute` to the finish
instant. -/
def shapeOrdered (rs fin : Int) : ExchangeShape → Prop
  | .fresh gc dns c1 c2 tls gotC wrote fb =>
      freshOrdered rs gc dns c1 c2 tls gotC wrote fb fin
  | .reused gc gotC wrote fb =>
      rs ≤ gc ∧ gc ≤ gotC ∧ gotC ≤ wrote ∧ wrote ≤ fb ∧ fb ≤ fin

/-- The measurement gap of an exchange: elapsed time between Execute's
start marker and the first instant from which the exposed phase durations
tile the rest of the exchange — the connection-acquisition start for a
fresh connection, the connection-acquired instant for a reused one. -/
def shapeGap (rs : Int) : ExchangeShape → Int
  | .fresh gc _ _ _ _ _ _ _ => gc - rs
  | .reused _ gotC _ _ => gotC - rs

/-- A sample request used to instantiate theorems with hypotheses. -/
def sampleReq : Request :=
  { method := "GET", url := ⟨"example.com", ""⟩, proto := "HTTP/1.1",
    header := [], body := "" }

/-- A sample 404 response. -/
def sampleResp404 : Response :=
  { status := "404 Not Found", statusCode := 404, header := [] }

/-- An execution that fails with a client timeout after the connection
observers have already fired: `GetConn` at 2ns, `GotConn` (fresh
connection) at 5ns, then `client.Do` returns an error. -/
def timeoutOutcome : Outcome :=
  { rStart := 0, events := [.getConn 2, .gotConn false 5],
    doResult := .error "context deadline exceeded", bodyRead := .ok "", finish := 6 }

/-- A request whose header map is listed in one order. -/
def permReq1 : Request :=
  { method := "GET", url := ⟨"thing.com", ""⟩, proto := "HTTP/1.1",
    header := [("B", ["1"]), ("A", ["2"])], body := "" }

/-- The same request with the header entries listed in the other order. -/
def permReq2 : Request :=
  { method := "GET", url := ⟨"thing.com", ""⟩, proto := "HTTP/1.1",
    header := [("A", ["2"]), ("B", ["1"])], body := "" }

/-- A response whose header map is listed in one order. -/
def permResp1 : Response :=
  { status := "200 OK", statusCode := 200,
    header := [("Vary", ["x"]), ("Content-Type", ["text/html"])] }

/-- The same response with the header entries listed in the other order. -/
def permResp2 : Response :=
  { status := "200 OK", statusCode := 200,
    header := [("Content-Type", ["text/html"]), ("Vary", ["x"])] }

end HttpTrace

namespace HttpTrace

/-- Helper: `splitFirstColon` finds nothing exactly when the list holds no
colon. -/
theorem splitFirstColon_eq_none (cs : List Char) :
    splitFirstColon cs = none ↔ (':') ∉ cs := by
  induction cs with
  | nil => simp [splitFirstColon]
  | cons c cs ih =>
      by_cases h : c = ':'
      · simp [splitFirstColon, h]
      · simp [splitFirstColon, h, ih, Ne.symm h]

/-- Helper: overwriting the present entry makes it the first hit of a
lookup for its key. -/
theorem find_map_set (l : HeaderMap) (k : String) (value : String)
    (h : l.any (fun e => e.1 = k) = true) :
    (l.map (fun e => if e.1 = k then (k, [value]) else e)).find? (fun e => e.1 = k)
      = some (k, [value]) := by
  induction l with
  | nil => simp at h
  | cons e l ih =>
      by_cases he : e.1 = k
      · simp [he, List.find?]
      · simp only [List.any_cons, he, decide_eq_true_eq, false_or] at h
        simp only [List.map_cons, if_neg he]
        rw [List.find?_cons_of_neg _ (by simp [he])]
        exact ih (by simpa using h)

/-- Helper: appending an entry whose key is absent makes it the first hit
of a lookup for its key. -/
theorem find_append_missing (l : HeaderMap) (k : String) (value : String)
    (h : l.any (fun e => e.1 = k) = false) :
    (l ++ [(k, [value])]).find? (fun e => e.1 = k) = some (k, [value]) := by
  induction l with
  | nil => simp [List.find?]
  | cons e l ih =>
      simp only [List.any_cons, Bool.or_eq_false_iff, decide_eq_false_iff_not] at h
      rw [List.cons_append, List.find?_cons_of_neg _ (by simp [h.1])]
      exact ih (by simp [h.2])

/-- Helper: a lookup after `headerSet` of the same key yields exactly the
one stored value. -/
theorem headerGet_headerSet (h : HeaderMap) (key value : String) :
    headerGet (headerSet h key value) key = some [value] := by
  unfold headerGet headerSet
  by_cases hk : h.any (fun e => e.1 = canonicalMIMEHeaderKey key)
  · rw [if_pos hk, find_map_set h _ value hk]
    simp
  · rw [Bool.not_eq_true] at hk
    rw [if_neg (by simp [hk]), find_append_missing h _ value hk]
    simp

/-- Helper: two key-sorted header lists that are permutations of each
other and have duplicate-free keys are equal. -/
theorem sorted_nodupkeys_perm_eq :
    ∀ l₁ l₂ : HeaderMap, List.Perm l₁ l₂ →
      l₁.Sorted keyLE → l₂.Sorted keyLE → (l₁.map Prod.fst).Nodup → l₁ = l₂
  | [], l₂, hp, _, _, _ => (hp.symm.eq_nil).symm ▸ rfl
  | a :: t₁, l₂, hp, hs₁, hs₂, hn₁ => by
      match l₂ with
      | [] => exact absurd hp.eq_nil (by simp)
      | b :: t₂ =>
          have hab : a = b := by
            have ha2 : a ∈ b :: t₂ := hp.subset (List.mem_cons_self a t₁)
            have hb1 : b ∈ a :: t₁ := hp.symm.subset (List.mem_cons_self b t₂)
            rcases List.mem_cons.1 ha2 with h | ha3
            · exact h
            rcases List.mem_cons.1 hb1 with h | hb3
            · exact h.symm
            have h1 : keyLE a b := (List.sorted_cons.1 hs₁).1 b hb3
            have h2 : keyLE b a := (List.sorted_cons.1 hs₂).1 a ha3
            have hk : a.1 = b.1 := le_antisymm h1 h2
            exfalso
            have hmem : a.1 ∈ t₁.map Prod.fst := List.mem_map.2 ⟨b, hb3, hk.symm⟩
            simp only [List.map_cons, List.nodup_cons] at hn₁
            exact hn₁.1 hmem
          subst hab
          have ht : t₁ = t₂ :=
            sorted_nodupkeys_perm_eq t₁ t₂ hp.cons_inv
              (List.sorted_cons.1 hs₁).2 (List.sorted_cons.1 hs₂).2
              (by simp only [List.map_cons, List.nodup_cons] at hn₁; exact hn₁.2)
          rw [ht]

/-- Helper: the sorted view of a header map does not depend on the order
in which the entries of the map are listed. -/
theorem sortHeader_perm_eq (l₁ l₂ : HeaderMap) (hp : List.Perm l₁ l₂)
    (hn : (l₁.map Prod.fst).Nodup) : sortHeader l₁ = sortHeader l₂ := by
  apply sorted_nodupkeys_perm_eq
  · exact (List.perm_insertionSort keyLE l₁).trans
      (hp.trans (List.perm_insertionSort keyLE l₂).symm)
  · exact List.sorted_insertionSort keyLE l₁
  · exact List.sorted_insertionSort keyLE l₂
  · exact ((List.perm_insertionSort keyLE l₁).map Prod.fst).nodup_iff.2 hn

/-- C1: for every successful exchange — fresh connection (with or without
DNS and TLS sub-phases) or reused connection — whose callbacks fire in
monotone order, the DNS, dial and TLS durations sum to at most the total
connection-setup duration, and the total connection-setup, write, delay
and read durations sum to the total request duration up to the
measurement gap between the start marker of Execute and the first
phase-tiling callback (the granularity bound `eps`). -/
theorem execute_timing_invariant (req : Request) (resp : Response) (b : String)
    (rs fin eps : Int) (sh : ExchangeShape)
    (hord : shapeOrdered rs fin sh)
    (hgap : shapeGap rs sh ≤ eps) :
    let tm := GetTimings (Execute (New req)
      ⟨rs, shapeEvents sh, .ok resp, .ok b, fin⟩).trace
    tm.DNSDuration + tm.ConnectionDialDuration + tm.TLSDuration
      ≤ tm.TotalConnectionDuration ∧
    tm.TotalConnectionDuration + tm.RequestWriteDuration +
      tm.ResponseDelayDuration + tm.ResponseReadDuration ≤ tm.TotalRequestDuration ∧
    tm.TotalRequestDuration - (tm.TotalConnectionDuration + tm.RequestWriteDuration +
      tm.ResponseDelayDuration + tm.ResponseReadDuration) ≤ eps := by
  rcases sh with ⟨gc, dns, c1, c2, tls, gotC, wrote, fb⟩ | ⟨gc, gotC, wrote, fb⟩
  · obtain ⟨h1, h2, h3, h4, h5, h6, h7⟩ := hord
    simp only [shapeGap] at hgap
    rcases dns with _ | ⟨d1, d2⟩ <;> rcases tls with _ | ⟨s1, s2⟩ <;>
      simp only [segOrdered] at h2 h4 <;>
      simp [Execute, New, GetTimings, shapeEvents, freshEvents, optEvents,
        applyEvents, applyEvent] <;>
      refine ⟨by linarith, by linarith, by linarith⟩
  · obtain ⟨h1, h2, h3, h4, h5⟩ := hord
    simp only [shapeGap] at hgap
    simp [Execute, New, GetTimings, shapeEvents, reusedEvents, applyEvents, applyEvent]
    refine ⟨by linarith, by linarith⟩

/-- C1 witness: the invariant at a concrete fresh exchange with DNS at
1..2ns, dial at 2..3ns, TLS at 3..4ns, connection acquired at 5ns, request
written at 6ns, first byte at 7ns, finish at 9ns, granularity bound 1ns,
and at a concrete reused exchange acquired at 1ns, written at 2ns, first
byte at 3ns, finish at 5ns. -/
theorem execute_timing_invariant_witness :
    (let tm := GetTimings (Execute (New sampleReq)
      ⟨0, shapeEvents (.fresh 1 (some (1, 2)) 2 3 (some (3, 4)) 5 6 7), .ok sampleResp404,
        .ok "", 9⟩).trace
    tm.DNSDuration + tm.ConnectionDialDuration + tm.TLSDuration
      ≤ tm.TotalConnectionDuration ∧
    tm.TotalConnectionDuration + tm.RequestWriteDuration +
      tm.ResponseDelayDuration + tm.ResponseReadDuration ≤ tm.TotalRequestDuration ∧
    tm.TotalRequestDuration - (tm.TotalConnectionDuration + tm.RequestWriteDuration +
      tm.ResponseDelayDuration + tm.ResponseReadDuration) ≤ 1) ∧
    (let tm := GetTimings (Execute (New sampleReq)
      ⟨0, shapeEvents (.reused 1 1 2 3), .ok sampleResp404, .ok "", 5⟩).trace
    tm.DNSDuration + tm.ConnectionDialDuration + tm.TLSDuration
      ≤ tm.TotalConnectionDuration ∧
    tm.TotalConnectionDuration + tm.RequestWriteDuration +
      tm.ResponseDelayDuration + tm.ResponseReadDuration ≤ tm.TotalRequestDuration ∧
    tm.TotalRequestDuration - (tm.TotalConnectionDuration + tm.RequestWriteDuration +
      tm.ResponseDelayDuration + tm.ResponseReadDuration) ≤ 1) :=
  ⟨execute_timing_invariant sampleReq sampleResp404 "" 0 9 1
    (.fresh 1 (some (1, 2)) 2 3 (some (3, 4)) 5 6 7)
    ⟨by decide, ⟨by decide, by decide, by decide⟩, by decide,
      ⟨by decide, by decide, by decide⟩, by decide, by decide, by decide⟩
    (by decide),
   execute_timing_invariant sampleReq sampleResp404 "" 0 5 1
    (.reused 1 1 2 3)
    ⟨by decide, by decide, by decide, by decide, by decide⟩
    (by decide)⟩

/-- C2 counterexample: after an Execute that returned an error, the timing
record exposed by GetTimings is not empty — the partially-populated
markers written by the callbacks before the failure (here a
total-connection-setup duration of 3ns) are retained, not discarded. -/
theorem getTimings_after_failed_execute_populated :
    (Execute (New sampleReq) timeoutOutcome).error ≠ none ∧
    GetTimings (Execute (New sampleReq) timeoutOutcome).trace ≠ ({} : Timings) ∧
    (GetTimings (Execute (New sampleReq) timeoutOutcome).trace).TotalConnectionDuration
      = 3 := by
  decide

/-- C2 amended: before any Execute, all three accessors return the
empty/zero value; after an Execute that returned an error, GetResponse
still returns nothing and GetResponseBody the empty string, but GetTimings
returns the timing record as mutated by whichever observers fired before
the failure (the markers are not discarded); the accessors are pure
projections with no side effects. -/
theorem accessors_empty_before_success (req : Request) (o : Outcome) (e : String)
    (herr : o.doResult = .error e) :
    GetResponse (New req) = none ∧
    GetResponseBody (New req) = "" ∧
    GetTimings (New req) = ({} : Timings) ∧
    (Execute (New req) o).error = some ("error sending request: " ++ e) ∧
    GetResponse (Execute (New req) o).trace = none ∧
    GetResponseBody (Execute (New req) o).trace = "" ∧
    GetTimings (Execute (New req) o).trace = applyEvents ({} : Timings) o.events := by
  rcases o with ⟨rs, ev, dr, br, fin⟩
  cases herr
  simp [Execute, New, GetResponse, GetResponseBody, GetTimings]

/-- C2 amended, witnessed at the concrete timed-out execution. -/
theorem accessors_empty_before_success_witness :
    GetResponse (New sampleReq) = none ∧
    GetResponse (Execute (New sampleReq) timeoutOutcome).trace = none ∧
    GetResponseBody (Execute (New sampleReq) timeoutOutcome).trace = "" := by
  have h := accessors_empty_before_success sampleReq timeoutOutcome
    "context deadline exceeded" rfl
  exact ⟨h.1, h.2.2.2.2.1, h.2.2.2.2.2.1⟩

/-- C3: SetHeaders succeeds exactly when every raw entry holds a colon; an
entry without a colon reaches the out-of-bounds access of the naive
first-colon split (modelled as `none`). -/
theorem setHeaders_total_iff (req : Request) (raw : List String) :
    (setHeaders req raw).isSome ↔ ∀ s ∈ raw, (':') ∈ s.data := by
  induction raw generalizing req with
  | nil => simp [setHeaders]
  | cons s rest ih =>
      rcases h : splitFirstColon s.data with _ | ⟨a, b⟩
      · have hc : (':') ∉ s.data := (splitFirstColon_eq_none s.data).1 h
        simp only [setHeaders, splitN2, h]
        simp only [Option.isSome_none, Bool.false_eq_true, false_iff]
        intro hall
        exact hc (hall s (List.mem_cons_self s rest))
      · have hc : (':') ∈ s.data := by
          by_contra hcc
          rw [← splitFirstColon_eq_none s.data] at hcc
          simp [h] at hcc
        simp only [setHeaders, splitN2, h]
        rw [ih]
        constructor
        · intro hall t ht
          rcases List.mem_cons.1 ht with rfl | ht2
          · exact hc
          · exact hall t ht2
        · intro hall t ht
          exact hall t (List.mem_cons_of_mem s ht)

/-- C3 witness: a well-formed entry is accepted; an entry with no colon
reaches the out-of-bounds branch. -/
theorem setHeaders_total_iff_witness :
    (setHeaders sampleReq ["X-Hello: hi"]).isSome = true ∧
    (setHeaders sampleReq ["no colon here"]).isSome = false := by
  constructor
  · exact (setHeaders_total_iff sampleReq ["X-Hello: hi"]).mpr (by decide)
  · simp only [Bool.eq_false_iff]
    intro hs
    have hall := (setHeaders_total_iff sampleReq ["no colon here"]).mp (by simpa using hs)
    have h2 := hall "no colon here" (by simp)
    revert h2
    decide

/-- C4: when reading the response body fails after a successful request,
Execute still returns success; the exposed body is the descriptive
placeholder containing the underlying cause; that message, with a newline,
is written to the diagnostic stream; and the response and the timing
record are exactly those of a normal completed exchange with the same
observations. -/
theorem execute_body_read_error (t : Trace) (rs : Int) (events : List TraceEvent)
    (resp : Response) (e : String) (fin : Int) (b : String) :
    (Execute t ⟨rs, events, .ok resp, .error e, fin⟩).error = none ∧
    GetResponseBody (Execute t ⟨rs, events, .ok resp, .error e, fin⟩).trace
      = "Error reading response body: " ++ e ∧
    e.data <:+:
      (GetResponseBody (Execute t ⟨rs, events, .ok resp, .error e, fin⟩).trace).data ∧
    (Execute t ⟨rs, events, .ok resp, .error e, fin⟩).stderr
      = ["Error reading response body: " ++ e ++ "\n"] ∧
    GetResponse (Execute t ⟨rs, events, .ok resp, .error e, fin⟩).trace = some resp ∧
    GetTimings (Execute t ⟨rs, events, .ok resp, .error e, fin⟩).trace
      = GetTimings (Execute t ⟨rs, events, .ok resp, .ok b, fin⟩).trace := by
  refine ⟨rfl, rfl, ⟨"Error reading response body: ".data, [], ?_⟩, rfl, rfl, rfl⟩
  simp [GetResponseBody, Execute, String.data_append]

/-- C5: when the underlying client reports an error, Execute aborts with
an error wrapping the client's error text and no response is produced; a
response with a non-2xx status such as 404 is not an error: the exchange
completes and the response is exposed. -/
theorem execute_client_error (req : Request) (rs : Int) (events : List TraceEvent)
    (e : String) (br : Except String String) (fin : Int)
    (resp : Response) (b : String) (_h404 : resp.statusCode = 404) :
    (Execute (New req) ⟨rs, events, .error e, br, fin⟩).error
      = some ("error sending request: " ++ e) ∧
    e.data <:+: ("error sending request: " ++ e).data ∧
    GetResponse (Execute (New req) ⟨rs, events, .error e, br, fin⟩).trace = none ∧
    (Execute (New req) ⟨rs, events, .ok resp, .ok b, fin⟩).error = none ∧
    GetResponse (Execute (New req) ⟨rs, events, .ok resp, .ok b, fin⟩).trace
      = some resp := by
  refine ⟨rfl, ⟨"error sending request: ".data, [], ?_⟩, rfl, rfl, rfl⟩
  simp [String.data_append]

/-- C5 witness at a concrete request, timeout error and 404 response. -/
theorem execute_client_error_witness :
    (Execute (New sampleReq) ⟨0, [], .error "timeout", .ok "", 9⟩).error
      = some ("error sending request: " ++ "timeout") ∧
    GetResponse (Execute (New sampleReq)
        ⟨0, [], .ok sampleResp404, .ok "", 9⟩).trace = some sampleResp404 := by
  have h := execute_client_error sampleReq 0 [] "timeout" (.ok "") 9 sampleResp404 "" rfl
  exact ⟨h.1, h.2.2.2.2⟩

/-- C6: on an exchange whose connection is reused from the pool (so the
fresh-connection observers do not fire and `GotConn` reports
`Reused = true`), the total connection-setup duration and the DNS, dial
and TLS durations are all exactly zero. -/
theorem execute_reused_connection_zero (req : Request) (resp : Response) (b : String)
    (rs gc gotC wrote fb fin : Int) :
    ((GetTimings (Execute (New req)
        ⟨rs, reusedEvents gc gotC wrote fb, .ok resp, .ok b, fin⟩).trace).TotalConnectionDuration
      = 0) ∧
    ((GetTimings (Execute (New req)
        ⟨rs, reusedEvents gc gotC wrote fb, .ok resp, .ok b, fin⟩).trace).DNSDuration = 0) ∧
    ((GetTimings (Execute (New req)
        ⟨rs, reusedEvents gc gotC wrote fb, .ok resp, .ok b, fin⟩).trace).ConnectionDialDuration
      = 0) ∧
    ((GetTimings (Execute (New req)
        ⟨rs, reusedEvents gc gotC wrote fb, .ok resp, .ok b, fin⟩).trace).TLSDuration = 0) := by
  simp [Execute, New, GetTimings, reusedEvents, applyEvents, applyEvent]

/-- C7: SetHeaders splits each entry at the first colon, trims whitespace
from name and value, and sets the header, overwriting: a single
`"X-Hello: hi"` entry yields header X-Hello = "hi", and of two entries
with the same name the later value wins. -/
theorem setHeaders_splits_trims_overwrites :
    (∀ (req : Request) (s o v : String), splitN2 s = [o, v] →
      setHeaders req [s] = some { req with
        header := headerSet req.header (trimSpace o) (trimSpace v) }) ∧
    (∀ req : Request,
      (setHeaders req ["X-Hello: hi"]).map (fun r => headerGet r.header "X-Hello")
        = some (some ["hi"])) ∧
    (∀ req : Request,
      (setHeaders req ["X-Same: one", "X-Same: two"]).map
          (fun r => headerGet r.header "X-Same")
        = some (some ["two"])) := by
  refine ⟨?_, ?_, ?_⟩
  · intro req s o v h
    simp [setHeaders, h]
  · intro req
    have h1 : splitN2 "X-Hello: hi" = ["X-Hello", " hi"] := by decide
    have h2 : trimSpace "X-Hello" = "X-Hello" := by decide
    have h3 : trimSpace " hi" = "hi" := by decide
    simp [setHeaders, h1, h2, h3, headerGet_headerSet]
  · intro req
    have h1 : splitN2 "X-Same: one" = ["X-Same", " one"] := by decide
    have h2 : splitN2 "X-Same: two" = ["X-Same", " two"] := by decide
    simp [setHeaders, h1, h2, (by decide : trimSpace "X-Same" = "X-Same"),
      (by decide : trimSpace " one" = "one"), (by decide : trimSpace " two" = "two"),
      headerGet_headerSet]

/-- C7 witness: the split/trim/set equation at one concrete entry. -/
theorem setHeaders_splits_trims_overwrites_witness :
    setHeaders sampleReq ["A: b"] = some { sampleReq with
      header := headerSet sampleReq.header (trimSpace "A") (trimSpace " b") } :=
  setHeaders_splits_trims_overwrites.1 sampleReq "A: b" "A" " b" (by decide)

/-- C8: with both suppression flags false the rendered report contains the
response-header section and the response body; with both flags true the
output is exactly the request block, the response status line and the
trace section. -/
theorem build_suppression (req : Request) (resp : Response) (body : String)
    (tm : Timings) :
    (renderHeaderLines "<" resp.header).data <:+:
        (buildOutput req resp body tm ⟨false, false⟩).data ∧
    body.data <:+: (buildOutput req resp body tm ⟨false, false⟩).data ∧
    buildOutput req resp body tm ⟨true, true⟩
      = requestBlock req ++ "< " ++ resp.status ++ traceSection tm := by
  refine ⟨?_, ?_, ?_⟩
  · refine ⟨(requestBlock req ++ "< " ++ resp.status).data,
      ("\n" ++ body ++ traceSection tm).data, ?_⟩
    simp [buildOutput, String.data_append, List.append_assoc]
  · refine ⟨(requestBlock req ++ "< " ++ resp.status ++
        renderHeaderLines "<" resp.header ++ "\n").data,
      (traceSection tm).data, ?_⟩
    simp [buildOutput, String.data_append, List.append_assoc]
  · simp [buildOutput]

/-- C9: the renderer is deterministic — two runs of Build on equal inputs
produce identical text; in particular listing the request or response
header maps in a different order (a permutation with duplicate-free keys)
does not change the output. -/
theorem build_deterministic (req₁ req₂ : Request) (resp₁ resp₂ : Response)
    (body : String) (tm : Timings) (pres : Presentation)
    (hm : req₁.method = req₂.method) (hu : req₁.url = req₂.url)
    (hp : req₁.proto = req₂.proto)
    (hreq : List.Perm req₁.header req₂.header)
    (hrk : (req₁.header.map Prod.fst).Nodup)
    (hst : resp₁.status = resp₂.status)
    (hresp : List.Perm resp₁.header resp₂.header)
    (hpk : (resp₁.header.map Prod.fst).Nodup) :
    buildOutput req₁ resp₁ body tm pres = buildOutput req₂ resp₂ body tm pres := by
  unfold buildOutput requestBlock renderHeaderLines
  rw [hm, hu, hp, hst, sortHeader_perm_eq _ _ hreq hrk,
    sortHeader_perm_eq _ _ hresp hpk]

/-- C9 witness: equal output on concrete header maps listed in two
different orders. -/
theorem build_deterministic_witness :
    buildOutput permReq1 permResp1 "body" ({} : Timings) ⟨false, false⟩
      = buildOutput permReq2 permResp2 "body" ({} : Timings) ⟨false, false⟩ :=
  build_deterministic permReq1 permReq2 permResp1 permResp2 "body" {} ⟨false, false⟩
    rfl rfl rfl (by decide) (by decide) rfl (by decide) (by decide)

/-- C10: Execute leaves the caller-visible fields of the outgoing request
unchanged — method, URL, header map contents and body are the same after
Execute as before it — and the request Execute sends is a derived copy
that differs only in carrying the trace-observer context. -/
theorem execute_request_frame (t : Trace) (o : Outcome) :
    (Execute t o).trace.request.method = t.request.method ∧
    (Execute t o).trace.request.url = t.request.url ∧
    (Execute t o).trace.request.header = t.request.header ∧
    (Execute t o).trace.request.body = t.request.body ∧
    (Execute t o).trace.request = { t.request with hasTraceContext := true } := by
  rcases o with ⟨rs, ev, dr, br, fin⟩
  cases dr <;> simp [Execute]

end HttpTrace
